import Mathlib

/-!
Verification development for the citations-tool repository.

The Python sources (citation_pipeline.py, reference_builder.py, main.py) are
shallowly embedded below.  Python strings are modelled as Lean `String`s, but
every operation the code performs on them (strip, startswith, slicing, split,
single-character replace, the regular expression of the title matcher) is
computed on the underlying character list, matching Python's code-point
semantics.  Character classes (\w, \s, str.lower) are modelled at their ASCII
meaning.  The external collaborators (the OpenAI chat calls, the arXiv client,
stdin) are modelled as explicit oracle records; a fallible arXiv request is an
`Except Unit` value, `.error ()` standing for a raised exception.  Each
embedded phase additionally returns the list of external calls it issued, in
order, so that statements about "no external calls" and "no fuzzy fallback"
can be made.
-/

namespace CitationsTool

/-! ## Character-level models of the Python string operations -/

/-- Python str.strip with no argument: drop leading and trailing whitespace. -/
def stripChars (l : List Char) : List Char :=
  ((l.dropWhile Char.isWhitespace).reverse.dropWhile Char.isWhitespace).reverse

/-- Python s.strip() on a string. -/
def pyStrip (s : String) : String := ⟨stripChars s.data⟩

/-- Python s.startswith(p). -/
def pyStartsWith (s p : String) : Bool := p.data.isPrefixOf s.data

/-- Python s[n:] (slicing by code points). -/
def pyDrop (s : String) (n : Nat) : String := ⟨s.data.drop n⟩

/-- Python s.split(c) for a one-character separator: never returns an empty
list, keeps empty fields. -/
def splitChar (c : Char) : List Char → List (List Char)
  | [] => [[]]
  | a :: as =>
    match splitChar c as with
    | [] => [[]]
    | x :: xs => if a = c then [] :: x :: xs else (a :: x) :: xs

/-- Python s.split(sep) for a one-character separator, on strings. -/
def pySplitOn (s : String) (c : Char) : List String :=
  (splitChar c s.data).map (fun l => ⟨l⟩)

/-- Python s.replace(old, new) where old is a single character: substitute
that character everywhere. -/
def replaceChar (l : List Char) (c : Char) (rep : List Char) : List Char :=
  (l.map (fun x => if x = c then rep else [x])).flatten

/-- Python int(s) on an already stripped string: an optional sign followed by
at least one digit. -/
def pyToInt? (s : String) : Option Int :=
  match s.data with
  | '-' :: ds => if ds ≠ [] ∧ ds.all Char.isDigit
      then some (-(ds.foldl (fun n d => 10 * n + (d.toNat - 48)) 0 : Int)) else none
  | '+' :: ds => if ds ≠ [] ∧ ds.all Char.isDigit
      then some ((ds.foldl (fun n d => 10 * n + (d.toNat - 48)) 0 : Int)) else none
  | ds => if ds ≠ [] ∧ ds.all Char.isDigit
      then some ((ds.foldl (fun n d => 10 * n + (d.toNat - 48)) 0 : Int)) else none

/-- Contiguous-sublist test on character lists. -/
def infixB (pat : List Char) : List Char → Bool
  | [] => pat.isPrefixOf []
  | a :: as => pat.isPrefixOf (a :: as) || infixB pat as

/-- Python "sub in s": substring containment. -/
def pyContains (s sub : String) : Bool := infixB sub.data s.data

/-- Python s.split('/')[-1]: the segment after the last slash. -/
def lastSegment (s : String) : String := ((pySplitOn s '/').getLast?).getD ""

/-- Python s.isdigit() (ASCII digits). -/
def pyIsDigit (s : String) : Bool := s.data ≠ [] && s.data.all Char.isDigit

/-- Python int(s) for a digits-only string. -/
def pyToNat (s : String) : Nat := s.data.foldl (fun n d => 10 * n + (d.toNat - 48)) 0

/-! ## Title Matcher (citation_pipeline.py lines 227-232, reference_builder.py
lines 157-163; the two copies are textually identical) -/

/-- A word character of the regular expression class \w: letter, digit or
underscore (ASCII reading). -/
def isWordChar (c : Char) : Bool := c.isAlphanum || c = '_'

/-- normalize(title) = re.sub(r of class [^\w\s], empty, title.lower()):
lower-case, then delete every character that is neither a word character nor
whitespace. -/
def normalizeTitle (s : String) : String :=
  ⟨(s.data.map Char.toLower).filter (fun c => isWordChar c || c.isWhitespace)⟩

/-- titles_match of both pipeline copies: normalized equality. -/
def titlesMatch (a b : String) : Bool := normalizeTitle a == normalizeTitle b

/-- Modelled from the spec: the Title Matcher normalization as §4.2 words it,
"lower-casing and stripping all characters that are not letters, digits, or
whitespace" (no underscore among the kept characters).  Used only to compare
the specified behaviour with the implemented one. -/
def specNormalizeTitle (s : String) : String :=
  ⟨(s.data.map Char.toLower).filter (fun c => c.isAlphanum || c.isWhitespace)⟩

/-! ## Data model -/

/-- One result of the bibliographic index (an arxiv.Result): canonical
identifier, title, authors, publication year when a publication date is
present, abstract, PDF locator. -/
structure ArxivResult where
  entry_id : String
  title : String
  authors : List String
  published : Option Int
  summary : String
  pdf_url : String
  deriving Repr, DecidableEq

/-- reference_builder.SuggestedPaper (authors default to the empty list;
the builder's parser always supplies a list). -/
structure SuggestedPaper where
  title : String
  authors : List String := []
  year : Option Int := none
  arxiv_url : Option String := none
  pdf_url : Option String := none
  abstract : Option String := none
  arxiv_id : Option String := none
  deriving Repr, DecidableEq

/-- citation_pipeline.Paper. -/
structure Paper where
  title : String
  authors : List String := []
  year : Option Int := none
  arxiv_id : Option String := none
  arxiv_url : Option String := none
  pdf_url : Option String := none
  abstract : Option String := none
  relevance : Option String := none
  source : String := "direct"
  deriving Repr, DecidableEq

/-- The dictionaries reference_builder.expand_by_key_authors works with;
keys a given dictionary does not carry are `none`. -/
structure PaperD where
  title : String
  authors : List String
  url : Option String
  pdf_url : Option String
  year : Option Int
  abstract : Option String
  fromAuthor : Option String := none
  originalPaper : Option String := none
  source : String
  selectionReason : Option String := none
  deriving Repr, DecidableEq

/-- An external call issued by the pipeline: a chat-completion request or one
of the three arXiv query forms. -/
inductive Call where
  | llm : Call
  | idQ : String → Call
  | titleQ : String → Call
  | authorQ : String → Call
  deriving Repr, DecidableEq

/-! ## Record Parser (reference_builder.get_suggested_papers, lines 56-102) -/

/-- The current_paper dictionary accumulated while parsing the suggestion
text; a missing key is `none`. -/
structure CurPaper where
  title : Option String := none
  authors : Option (List String) := none
  year : Option Int := none
  arxiv_url : Option String := none
  relevance : Option String := none
  deriving Repr, DecidableEq

/-- Python truthiness of current_paper.get a title key: present and
non-empty. -/
def CurPaper.titled (cur : CurPaper) : Bool := cur.title.getD "" ≠ ""

/-- The SuggestedPaper built from the accumulated dictionary on a flush
(title or authors or year defaulted as in the source; the relevance field is
parsed but not passed to the constructor). -/
def CurPaper.emit (cur : CurPaper) : SuggestedPaper :=
  { title := cur.title.getD ""
    authors := cur.authors.getD []
    year := cur.year
    arxiv_url := cur.arxiv_url }

/-- One flush: the record is emitted only when a non-empty title has been
seen. -/
def CurPaper.flush (cur : CurPaper) : List SuggestedPaper :=
  if cur.titled then [cur.emit] else []

/-- The line loop of get_suggested_papers.  Each line is stripped; a blank
line or a new Title line flushes the current record; Year content that is not
an integer is ignored for that field; authors are split on commas and
trimmed; unrecognized lines are ignored. -/
def parseLines : List String → CurPaper → List SuggestedPaper
  | [], cur => cur.flush
  | l :: ls, cur =>
    let line := pyStrip l
    if line = "" then
      cur.flush ++ parseLines ls {}
    else if pyStartsWith line "Title:" then
      cur.flush ++ parseLines ls { title := some (pyStrip (pyDrop line 6)) }
    else if pyStartsWith line "Year:" then
      parseLines ls { cur with
        year := match pyToInt? (pyStrip (pyDrop line 5)) with
                | some n => some n
                | none => cur.year }
    else if pyStartsWith line "Authors:" then
      parseLines ls { cur with
        authors := some ((pySplitOn (pyDrop line 8) ',').map pyStrip) }
    else if pyStartsWith line "Relevance:" then
      parseLines ls { cur with relevance := some (pyStrip (pyDrop line 10)) }
    else if pyStartsWith line "Arxiv URL:" then
      parseLines ls { cur with arxiv_url := some (pyStrip (pyDrop line 11)) }
    else
      parseLines ls cur

/-- get_suggested_papers applied to the chat response text: strip the whole
response, split on newlines, run the line loop with an empty dictionary. -/
def parseSuggestedPapers (text : String) : List SuggestedPaper :=
  parseLines (pySplitOn (pyStrip text) '\n') {}

/-! ## External collaborators as oracles

The arXiv client may raise: a request is an `Except Unit (List ArxivResult)`.
A chat completion returns free text; the key-author and re-ranking calls are
given the data their prompts are formatted from (the prompt formatting itself
carries no logic the claims depend on). -/

/-- The collaborators of reference_builder.ReferenceBuilder. -/
structure RBOracle where
  idQuery : String → Except Unit (List ArxivResult)
  titleQuery : String → Except Unit (List ArxivResult)
  authorQuery : String → Except Unit (List ArxivResult)
  keyAuthorsResp : String → List String → String
  rankResp : String → List PaperD → String

/-- The collaborators of citation_pipeline.CitationPipeline, together with
the interactive stdin answer read by _search_arxiv_by_title. -/
structure CPOracle where
  idQuery : String → Except Unit (List ArxivResult)
  titleQuery : String → Except Unit (List ArxivResult)
  authorQuery : String → Except Unit (List ArxivResult)
  keyAuthorsResp : List String → String
  rankResp : String → List Paper → String
  choice : String

/-! ## Bibliographic Validator, ReferenceBuilder flavour
(validate_by_arxiv_url lines 117-155, find_by_title lines 394-423) -/

/-- Enrichment applied on acceptance of an index result: copy identifier,
PDF locator, abstract, authors, and the authoritative year when a publication
date is present. -/
def SuggestedPaper.enrich (p : SuggestedPaper) (r : ArxivResult) : SuggestedPaper :=
  { p with
    arxiv_id := some r.entry_id
    pdf_url := some r.pdf_url
    abstract := some r.summary
    authors := r.authors
    year := match r.published with
            | some y => some y
            | none => p.year }

/-- The search string of find_by_title: colons and hyphens replaced by
spaces. -/
def searchTitleOf (title : String) : String :=
  ⟨replaceChar (replaceChar title.data ':' [' ']) '-' [' ']⟩

/-- find_by_title: one title-phrase query, then a scan in rank order for the
first result whose title matches; the accepted record also gets a rebuilt
arxiv_url.  The accepting ArxivResult is returned alongside the record so
that soundness can be stated; the Python function returns only the record. -/
def rbFindByTitle (o : RBOracle) (p : SuggestedPaper) :
    Option (SuggestedPaper × ArxivResult) × List Call :=
  let q := searchTitleOf p.title
  match o.titleQuery q with
  | .error _ => (none, [Call.titleQ q])
  | .ok results =>
    match results.find? (fun r => titlesMatch p.title r.title) with
    | some r =>
      (some ({ p.enrich r with
                arxiv_url := some ("https://arxiv.org/abs/" ++ lastSegment r.entry_id) }, r),
       [Call.titleQ q])
    | none => (none, [Call.titleQ q])

/-- The per-candidate body of validate_by_arxiv_url: the direct-locator path
(query by the identifier taken from the candidate's arxiv_url, accept when
the result list is non-empty and its first title matches), then
find_by_title when the direct path did not accept. -/
def rbValidateOne (o : RBOracle) (p : SuggestedPaper) :
    Option (SuggestedPaper × ArxivResult) × List Call :=
  match p.arxiv_url with
  | none => rbFindByTitle o p
  | some u =>
    let aid := lastSegment u
    if pyContains u "arxiv.org" ∧ aid ≠ "" then
      match o.idQuery aid with
      | .error _ =>
        let (res, calls) := rbFindByTitle o p
        (res, Call.idQ aid :: calls)
      | .ok results =>
        match results with
        | [] =>
          let (res, calls) := rbFindByTitle o p
          (res, Call.idQ aid :: calls)
        | r :: _ =>
          if titlesMatch p.title r.title then
            (some (p.enrich r, r), [Call.idQ aid])
          else
            let (res, calls) := rbFindByTitle o p
            (res, Call.idQ aid :: calls)
    else
      rbFindByTitle o p

/-- validate_by_arxiv_url: the sequential loop over the candidates, keeping
the confirmed records in input order. -/
def rbValidatePapers (o : RBOracle) : List SuggestedPaper → List SuggestedPaper × List Call
  | [] => ([], [])
  | p :: ps =>
    let (res, calls) := rbValidateOne o p
    let (rest, calls') := rbValidatePapers o ps
    (((res.map Prod.fst).toList) ++ rest, calls ++ calls')

/-! ## Bibliographic Validator, CitationPipeline flavour
(validate_papers lines 188-225, _search_arxiv_by_title lines 234-281) -/

/-- Enrichment of a Paper from an accepted index result (title and source tag
are left as they were). -/
def Paper.enrich (p : Paper) (r : ArxivResult) : Paper :=
  { p with
    arxiv_id := some r.entry_id
    pdf_url := some r.pdf_url
    abstract := some r.summary
    authors := r.authors
    year := match r.published with
            | some y => some y
            | none => p.year }

/-- _search_arxiv_by_title: one title-phrase query; scan for the first exact
match; when no result matches, the ranked results are shown and the stdin
answer may pick one of them by number, accepting it without a title check.
The accepting ArxivResult is returned alongside the record so that soundness
can be stated. -/
def cpSearchByTitle (o : CPOracle) (p : Paper) :
    Option (Paper × ArxivResult) × List Call :=
  let q := searchTitleOf p.title
  match o.titleQuery q with
  | .error _ => (none, [Call.titleQ q])
  | .ok results =>
    match results.find? (fun r => titlesMatch p.title r.title) with
    | some r =>
      (some ({ p.enrich r with
                arxiv_url := some ("https://arxiv.org/abs/" ++ lastSegment r.entry_id) }, r),
       [Call.titleQ q])
    | none =>
      if results ≠ [] then
        if pyIsDigit o.choice ∧ 0 < pyToNat o.choice ∧ pyToNat o.choice ≤ results.length then
          match results.get? (pyToNat o.choice - 1) with
          | some r =>
            (some ({ p.enrich r with
                      arxiv_url := some ("https://arxiv.org/abs/" ++ lastSegment r.entry_id) }, r),
             [Call.titleQ q])
          | none => (none, [Call.titleQ q])
        else (none, [Call.titleQ q])
      else (none, [Call.titleQ q])

/-- The per-candidate body of validate_papers: direct-locator path first
(accepts when the identifier query returns a non-empty list whose first title
matches, and then skips the fallback), otherwise _search_arxiv_by_title. -/
def cpValidateOne (o : CPOracle) (p : Paper) :
    Option (Paper × ArxivResult) × List Call :=
  match p.arxiv_url with
  | none => cpSearchByTitle o p
  | some u =>
    let aid := lastSegment u
    if pyContains u "arxiv.org" ∧ aid ≠ "" then
      match o.idQuery aid with
      | .error _ =>
        let (res, calls) := cpSearchByTitle o p
        (res, Call.idQ aid :: calls)
      | .ok results =>
        match results with
        | [] =>
          let (res, calls) := cpSearchByTitle o p
          (res, Call.idQ aid :: calls)
        | r :: _ =>
          if titlesMatch p.title r.title then
            (some (p.enrich r, r), [Call.idQ aid])
          else
            let (res, calls) := cpSearchByTitle o p
            (res, Call.idQ aid :: calls)
    else
      cpSearchByTitle o p

/-- validate_papers: the sequential loop over the candidates. -/
def cpValidatePapers (o : CPOracle) : List Paper → List Paper × List Call
  | [] => ([], [])
  | p :: ps =>
    let (res, calls) := cpValidateOne o p
    let (rest, calls') := cpValidatePapers o ps
    (((res.map Prod.fst).toList) ++ rest, calls ++ calls')

/-! ## Deduplication

citation_pipeline.expand_by_authors lines 386-394 keeps the first paper seen
for each arxiv_id; reference_builder.expand_by_key_authors line 230 builds
the Python dictionary of the url keys, whose value for a repeated key is the
one written last, while the key keeps its first insertion position. -/

/-- The seen-set loop of citation_pipeline (first occurrence kept). -/
def cpDedupAux : List Paper → List (Option String) → List Paper
  | [], _ => []
  | p :: ps, seen =>
    if p.arxiv_id ∈ seen then cpDedupAux ps seen
    else p :: cpDedupAux ps (p.arxiv_id :: seen)

/-- unique_papers of citation_pipeline.expand_by_authors. -/
def cpDedup (l : List Paper) : List Paper := cpDedupAux l []

/-- Writing one key/value pair into an insertion-ordered dictionary: an
existing key keeps its position and gets the new value, a new key is
appended. -/
def dictUpsert (d : List (Option String × PaperD)) (k : Option String) (v : PaperD) :
    List (Option String × PaperD) :=
  match d with
  | [] => [(k, v)]
  | (k', v') :: rest =>
    if k' = k then (k', v) :: rest else (k', v') :: dictUpsert rest k v

/-- The dictionary comprehension keyed by url. -/
def rbPoolDict (l : List PaperD) : List (Option String × PaperD) :=
  l.foldl (fun d p => dictUpsert d p.url p) []

/-- unique_papers of reference_builder.expand_by_key_authors: the values of
the url-keyed dictionary. -/
def rbDedup (l : List PaperD) : List PaperD := (rbPoolDict l).map Prod.snd

/-! ## Author-Network Expander, ReferenceBuilder flavour
(expand_by_key_authors lines 165-297) -/

/-- The initial_papers dictionaries built from the validated records
(source tag "initial", url taken from arxiv_id). -/
def rbInitial (v : List SuggestedPaper) : List PaperD :=
  v.map fun p =>
    { title := p.title
      authors := p.authors
      url := p.arxiv_id
      pdf_url := p.pdf_url
      year := p.year
      abstract := p.abstract
      source := "initial" }

/-- The key-author names parsed from the chat answer for one validated
paper: strip the answer, split on newlines, strip each line. -/
def rbKeyAuthorsOf (o : RBOracle) (p : SuggestedPaper) : List String :=
  (pySplitOn (pyStrip (o.keyAuthorsResp p.title p.authors)) '\n').map pyStrip

/-- The search loop over one paper's key authors: each author-query failure
is caught and skipped; each result becomes an author_search dictionary
remembering the author and the originating paper. -/
def rbAuthorLoop (o : RBOracle) (p : SuggestedPaper) : List String → List PaperD × List Call
  | [] => ([], [])
  | a :: as =>
    let (rest, calls) := rbAuthorLoop o p as
    match o.authorQuery a with
    | .error _ => (rest, Call.authorQ a :: calls)
    | .ok rs =>
      (rs.map (fun r =>
        { title := r.title
          authors := r.authors
          url := some r.entry_id
          pdf_url := some r.pdf_url
          year := r.published
          abstract := some r.summary
          fromAuthor := some a
          source := "author_search"
          originalPaper := some p.title }) ++ rest,
       Call.authorQ a :: calls)

/-- The outer loop of phase 3: one key-author chat call per validated paper
followed by that paper's author searches.  The source re-initializes
author_papers INSIDE this loop (line 202) and reads it only after the loop
(line 229), so the list surviving the loop holds the LAST validated paper's
results only — every earlier paper's candidates are discarded, though their
calls still happen — and on an empty validated list the name is never bound
(`none` here; reading it raises UnboundLocalError). -/
def rbAuthorPapers (o : RBOracle) : List SuggestedPaper → Option (List PaperD) × List Call
  | [] => (none, [])
  | [p] =>
    let (mine, calls) := rbAuthorLoop o p (rbKeyAuthorsOf o p)
    (some mine, Call.llm :: calls)
  | p :: p2 :: ps =>
    let (_, calls) := rbAuthorLoop o p (rbKeyAuthorsOf o p)
    let (rest, calls') := rbAuthorPapers o (p2 :: ps)
    (rest, Call.llm :: (calls ++ calls'))

/-- The merged, deduplicated pool handed to the re-ranking call: the initial
dictionaries plus the author-expansion candidates that survive the loop (the
last validated record's).  The `getD []` only covers the empty-input case,
in which the code raises before any pool is built. -/
def rbPool (o : RBOracle) (v : List SuggestedPaper) : List PaperD :=
  rbDedup (rbInitial v ++ ((rbAuthorPapers o v).1.getD []))

/-- One parsed selection of the re-ranking answer: a PAPER url, and the
REASON when one was given (reading a selection that has no REASON line
raises a KeyError in the source). -/
structure Selection where
  url : String
  reason : Option String := none
  deriving Repr, DecidableEq

/-- The current selection dictionary while parsing the ranking answer. -/
structure CurSel where
  url : Option String := none
  reason : Option String := none
  deriving Repr, DecidableEq

/-- Flush of the current selection: kept only when a non-empty url was
seen. -/
def CurSel.flush (cur : CurSel) : List Selection :=
  match cur.url with
  | some u => if u ≠ "" then [{ url := u, reason := cur.reason }] else []
  | none => []

/-- The PAPER/REASON line loop of expand_by_key_authors lines 255-269. -/
def parseSelLines : List String → CurSel → List Selection
  | [], cur => cur.flush
  | l :: ls, cur =>
    let line := pyStrip l
    if pyStartsWith line "PAPER:" then
      cur.flush ++ parseSelLines ls { url := some (pyStrip (pyDrop line 6)) }
    else if pyStartsWith line "REASON:" then
      parseSelLines ls { cur with reason := some (pyStrip (pyDrop line 7)) }
    else
      parseSelLines ls cur

/-- The selections parsed from the re-ranking answer over the pool. -/
def rbSelections (o : RBOracle) (v : List SuggestedPaper) (text : String) : List Selection :=
  parseSelLines (pySplitOn (pyStrip (o.rankResp text (rbPool o v))) '\n') {}

/-- The final loop: each selection is looked up in the pool by url; a found
paper gets the selection's reason attached, which raises (KeyError, modelled
as `.error ()`) when the selection carried no REASON line. -/
def rbFinalAux (pool : List PaperD) : List Selection → Except Unit (List PaperD)
  | [] => .ok []
  | sel :: rest =>
    match pool.find? (fun p => p.url == some sel.url) with
    | none => rbFinalAux pool rest
    | some p =>
      match sel.reason with
      | none => .error ()
      | some why =>
        match rbFinalAux pool rest with
        | .error _ => .error ()
        | .ok tail => .ok ({ p with selectionReason := some why } :: tail)

/-- expand_by_key_authors: author expansion, merge, dedup and the ranking
gate.  `.error ()` stands for an uncaught exception: the UnboundLocalError
raised at the merge line when the validated list was empty (author_papers
was never bound), or the KeyError of a REASON-less selection.  The
re-ranking chat call only happens on a non-empty pool. -/
def rbExpand (o : RBOracle) (v : List SuggestedPaper) (text : String) :
    Except Unit (List PaperD) × List Call :=
  let (aps, calls) := rbAuthorPapers o v
  match aps with
  | none => (.error (), calls)
  | some _ =>
    if rbPool o v ≠ [] then
      (rbFinalAux (rbPool o v) (rbSelections o v text), calls ++ [Call.llm])
    else
      (.ok [], calls)

/-! ## Author-Network Expander, CitationPipeline flavour
(expand_by_authors lines 283-396) -/

/-- The authors gathered from the validated papers for the key-author
prompt (the Python set construction is modelled by the concatenated author
lists; no claim depends on its order or multiplicity). -/
def cpAllAuthors (v : List Paper) : List String := (v.map Paper.authors).flatten

/-- The key-author names parsed from the single chat answer. -/
def cpKeyAuthors (o : CPOracle) (v : List Paper) : List String :=
  (pySplitOn (pyStrip (o.keyAuthorsResp (cpAllAuthors v))) '\n').map pyStrip

/-- The author-search loop: each query failure is caught and skipped; each
result becomes an author_search Paper. -/
def cpAuthorLoop (o : CPOracle) : List String → List Paper × List Call
  | [] => ([], [])
  | a :: as =>
    let (rest, calls) := cpAuthorLoop o as
    match o.authorQuery a with
    | .error _ => (rest, Call.authorQ a :: calls)
    | .ok rs =>
      (rs.map (fun r =>
        { title := r.title
          authors := r.authors
          year := r.published
          arxiv_id := some r.entry_id
          arxiv_url := some ("https://arxiv.org/abs/" ++ lastSegment r.entry_id)
          pdf_url := some r.pdf_url
          abstract := some r.summary
          source := "author_search" }) ++ rest,
       Call.authorQ a :: calls)

/-- The current dictionary while parsing the relevance-filter answer. -/
structure CurRel where
  title : Option String := none
  reason : Option String := none
  deriving Repr, DecidableEq

/-- Flush of the current filter entry: when a non-empty title was seen, the
first author paper whose title matches is kept, with the stated reason (read
leniently by .get) attached as its relevance. -/
def CurRel.flush (cur : CurRel) (authorPapers : List Paper) : List Paper :=
  match cur.title with
  | none => []
  | some t =>
    if t ≠ "" then
      match authorPapers.find? (fun p => titlesMatch p.title t) with
      | some p => [{ p with relevance := cur.reason }]
      | none => []
    else []

/-- The PAPER/REASON line loop of expand_by_authors lines 363-381. -/
def cpParseRelLines (authorPapers : List Paper) : List String → CurRel → List Paper
  | [], cur => cur.flush authorPapers
  | l :: ls, cur =>
    if pyStartsWith l "PAPER:" then
      cur.flush authorPapers ++
        cpParseRelLines authorPapers ls { title := some (pyStrip (pyDrop l 6)) }
    else if pyStartsWith l "REASON:" then
      cpParseRelLines authorPapers ls { cur with reason := some (pyStrip (pyDrop l 7)) }
    else
      cpParseRelLines authorPapers ls cur

/-- expand_by_authors: one key-author chat call (issued even when the
validated list is empty), the author searches, and then, only when author
papers were found, the relevance filter over the author papers alone,
the merge validated ++ relevant, and the first-wins dedup.  When no author
paper was found the validated list is returned as it is. -/
def cpExpand (o : CPOracle) (v : List Paper) (text : String) : List Paper × List Call :=
  let (authorPapers, calls) := cpAuthorLoop o (cpKeyAuthors o v)
  if authorPapers ≠ [] then
    let relevant :=
      cpParseRelLines authorPapers
        (pySplitOn (pyStrip (o.rankResp text authorPapers)) '\n') {}
    (cpDedup (v ++ relevant), Call.llm :: (calls ++ [Call.llm]))
  else
    (v, Call.llm :: calls)

/-! ## Citation Formatter (generate_bibtex, reference_builder lines 305-334
and citation_pipeline lines 398-432) -/

/-- The title cleaning of generate_bibtex: newlines to spaces, then each
brace prefixed with a backslash; nothing is done to backslashes. -/
def bibtexCleanTitle (t : String) : String :=
  ⟨replaceChar (replaceChar (replaceChar t.data '\n' [' ']) '{' ['\\', '{']) '}' ['\\', '}']⟩

/-! ## HTTP boundary (main.py lines 19-30) -/

/-- ParagraphRequest.validate_paragraph: reject embedded newlines, then
length over 3000 (with an error message naming 1500), then
whitespace-only text; otherwise pass the stripped text. -/
def validateParagraph (v : String) : Except String String :=
  if v.data.contains '\n' then
    .error "Text must be a single paragraph (no line breaks)"
  else if v.data.length > 3000 then
    .error "Text must not exceed 1500 characters"
  else if (pyStrip v).data.length = 0 then
    .error "Text cannot be empty"
  else
    .ok (pyStrip v)

/-! ## Concrete fixtures for counterexamples and witnesses -/

/-- An index result whose title does not match the candidate "A". -/
def resMismatch : ArxivResult :=
  { entry_id := "http://arxiv.org/abs/9999", title := "B", authors := ["Xavier Yz"],
    published := some 2020, summary := "s", pdf_url := "p" }

/-- An index result whose title matches the candidate "A" up to
punctuation. -/
def resMatchA : ArxivResult :=
  { entry_id := "http://arxiv.org/abs/1234", title := "A!", authors := ["Cee Dee"],
    published := some 2019, summary := "sa", pdf_url := "pa" }

/-- An author-search result with identifier "U". -/
def resU : ArxivResult :=
  { entry_id := "U", title := "T", authors := ["Ann Bee"],
    published := some 2021, summary := "s", pdf_url := "p" }

/-- An author-search result with identifier "U2". -/
def resU2 : ArxivResult :=
  { entry_id := "U2", title := "T2", authors := ["Ann Bee"],
    published := some 2021, summary := "s2", pdf_url := "p2" }

/-- A CitationPipeline run in which the title search returns one
non-matching result and the stdin answer picks it. -/
def cpOracleUserPick : CPOracle :=
  { idQuery := fun _ => .error (), titleQuery := fun _ => .ok [resMismatch],
    authorQuery := fun _ => .error (), keyAuthorsResp := fun _ => "",
    rankResp := fun _ _ => "", choice := "1" }

/-- A CitationPipeline run whose key-author search finds one paper and whose
relevance filter selects nothing. -/
def cpOracleSelectNone : CPOracle :=
  { idQuery := fun _ => .error (), titleQuery := fun _ => .error (),
    authorQuery := fun a => if a = "X" then .ok [resMismatch] else .error (),
    keyAuthorsResp := fun _ => "X", rankResp := fun _ _ => "", choice := "0" }

/-- A ReferenceBuilder run whose single key author's search returns the very
paper that was validated (identifier "U"). -/
def rbOracleDupU : RBOracle :=
  { idQuery := fun _ => .error (), titleQuery := fun _ => .error (),
    authorQuery := fun a => if a = "X" then .ok [resU] else .error (),
    keyAuthorsResp := fun _ _ => "X", rankResp := fun _ _ => "" }

/-- A ReferenceBuilder run whose ranking answer selects the url U2 twice. -/
def rbOracleTwiceU2 : RBOracle :=
  { idQuery := fun _ => .error (), titleQuery := fun _ => .error (),
    authorQuery := fun a => if a = "X" then .ok [resU2] else .error (),
    keyAuthorsResp := fun _ _ => "X",
    rankResp := fun _ _ => "PAPER: U2\nREASON: r\nPAPER: U2\nREASON: r" }

/-- A ReferenceBuilder run whose ranking answer selects the url U2 once. -/
def rbOracleOnceU2 : RBOracle :=
  { idQuery := fun _ => .error (), titleQuery := fun _ => .error (),
    authorQuery := fun a => if a = "X" then .ok [resU2] else .error (),
    keyAuthorsResp := fun _ _ => "X",
    rankResp := fun _ _ => "PAPER: U2\nREASON: r" }

/-- A ReferenceBuilder run whose identifier query returns two results, the
first of which matches. -/
def rbOracleTwoResults : RBOracle :=
  { idQuery := fun i => if i = "1234" then .ok [resMatchA, resU] else .error (),
    titleQuery := fun _ => .error (), authorQuery := fun _ => .error (),
    keyAuthorsResp := fun _ _ => "", rankResp := fun _ _ => "" }

/-- A ReferenceBuilder run whose identifier query returns one matching
result. -/
def rbOracleOneResult : RBOracle :=
  { idQuery := fun i => if i = "1234" then .ok [resMatchA] else .error (),
    titleQuery := fun _ => .error (), authorQuery := fun _ => .error (),
    keyAuthorsResp := fun _ _ => "", rankResp := fun _ _ => "" }

/-- A ReferenceBuilder run whose title search returns one matching result. -/
def rbOracleTitleHit : RBOracle :=
  { idQuery := fun _ => .error (), titleQuery := fun _ => .ok [resMatchA],
    authorQuery := fun _ => .error (),
    keyAuthorsResp := fun _ _ => "", rankResp := fun _ _ => "" }

/-- The candidate with title "A" and no locator. -/
def candA : Paper := { title := "A" }

/-- The SuggestedPaper candidate with title "A" and no locator. -/
def suggA : SuggestedPaper := { title := "A" }

/-- The SuggestedPaper candidate with title "A" and an arXiv locator. -/
def suggAUrl : SuggestedPaper :=
  { title := "A", arxiv_url := some "https://arxiv.org/abs/1234" }

/-- A validated record with identifier "U". -/
def validatedU : SuggestedPaper :=
  { title := "T", authors := ["Ann Bee"], arxiv_id := some "U" }

/-- A validated record with identifier "U1". -/
def validatedU1 : SuggestedPaper :=
  { title := "T1", authors := ["Ann Bee"], arxiv_id := some "U1" }

/-- A validated Paper with identifier "id1". -/
def validatedCP : Paper := { title := "V", arxiv_id := some "id1" }

/-- The record the interactive pick of cpOracleUserPick emits: the
candidate's own title "A" over the metadata of the non-matching result. -/
def pickedA : Paper :=
  { title := "A", authors := ["Xavier Yz"], year := some 2020,
    arxiv_id := some "http://arxiv.org/abs/9999",
    arxiv_url := some "https://arxiv.org/abs/9999",
    pdf_url := some "p", abstract := some "s", source := "direct" }

/-- The initial-pool dictionary built from validatedU. -/
def initU : PaperD :=
  { title := "T", authors := ["Ann Bee"], url := some "U", pdf_url := none,
    year := none, abstract := none, source := "initial" }

/-- The author-search dictionary for resU found through key author "X". -/
def dupPoolPaper : PaperD :=
  { title := "T", authors := ["Ann Bee"], url := some "U", pdf_url := some "p",
    year := some 2021, abstract := some "s", fromAuthor := some "X",
    originalPaper := some "T", source := "author_search" }

/-- The author-search dictionary for resU2 with the attached selection
reason "r". -/
def selectedU2 : PaperD :=
  { title := "T2", authors := ["Ann Bee"], url := some "U2", pdf_url := some "p2",
    year := some 2021, abstract := some "s2", fromAuthor := some "X",
    originalPaper := some "T1", source := "author_search", selectionReason := some "r" }

/-- The direct-path enrichment of suggAUrl from resMatchA. -/
def enrichedA : SuggestedPaper :=
  { title := "A", authors := ["Cee Dee"], year := some 2019,
    arxiv_url := some "https://arxiv.org/abs/1234", pdf_url := some "pa",
    abstract := some "sa", arxiv_id := some "http://arxiv.org/abs/1234" }

/-- The author-search Paper built from resMismatch. -/
def authorPaperB : Paper :=
  { title := "B", authors := ["Xavier Yz"], year := some 2020,
    arxiv_id := some "http://arxiv.org/abs/9999",
    arxiv_url := some "https://arxiv.org/abs/9999",
    pdf_url := some "p", abstract := some "s", source := "author_search" }

/-- One character's substitution in the generated title: newline to space,
each brace to backslash-brace, all else unchanged (the composition of the
three replace calls of generate_bibtex). -/
def bibtexCharSub (c : Char) : List Char :=
  if c = '\n' then [' ']
  else if c = '{' then ['\\', '{']
  else if c = '}' then ['\\', '}']
  else [c]

/-- Scanner for brace escaping: esc records whether the previous character
was a backslash; a brace is only allowed when esc holds. -/
def noBareBraceAux : Bool → List Char → Bool
  | _, [] => true
  | esc, c :: cs =>
    if c = '{' ∨ c = '}' then esc && noBareBraceAux false cs
    else noBareBraceAux (decide (c = '\\')) cs

/-- Every brace occurrence is immediately preceded by a backslash. -/
def noBareBrace (l : List Char) : Bool := noBareBraceAux false l

/-- A well-formed field block of the round-trip property: a non-empty title,
an optional year, an optional author list. -/
structure Block where
  title : String
  year : Option Int := none
  authors : Option (List String) := none
  deriving Repr, DecidableEq

/-- The rendered title line of a block. -/
def titleLineOf (b : Block) : String := "Title: " ++ b.title

/-- The rendered year line. -/
def yearLineOf (y : Int) : String := "Year: " ++ toString y

/-- Comma-and-space separated list, as the Authors field format expects. -/
def joinComma : List String → String
  | [] => ""
  | [a] => a
  | a :: b :: rest => a ++ ", " ++ joinComma (b :: rest)

/-- The rendered authors line. -/
def authorsLineOf (as : List String) : String := "Authors: " ++ joinComma as

/-- The lines of one field block: title line, then year and authors lines
when present. -/
def renderBlock (b : Block) : List String :=
  titleLineOf b :: ((b.year.map yearLineOf).toList ++ (b.authors.map authorsLineOf).toList)

/-- The record a well-formed block describes. -/
def blockRecord (b : Block) : SuggestedPaper :=
  { title := b.title, authors := b.authors.getD [], year := b.year }

/-- The parser dictionary after reading one whole block. -/
def curOf (b : Block) : CurPaper :=
  { title := some b.title, authors := b.authors, year := b.year }

/-- Well-formedness of the optional year line: rendered cleanly (no stray
whitespace, no label collision) and its content parses back to the year. -/
def wfYearLine : Option Int → Bool
  | none => true
  | some y =>
    (pyStrip (yearLineOf y) == yearLineOf y)
    && !(yearLineOf y == "")
    && !(pyStartsWith (yearLineOf y) "Title:")
    && pyStartsWith (yearLineOf y) "Year:"
    && (pyToInt? (pyStrip (pyDrop (yearLineOf y) 5)) == some y)

/-- Well-formedness of the optional authors line: rendered cleanly and its
content splits back to the author list. -/
def wfAuthorsLine : Option (List String) → Bool
  | none => true
  | some as =>
    (pyStrip (authorsLineOf as) == authorsLineOf as)
    && !(authorsLineOf as == "")
    && !(pyStartsWith (authorsLineOf as) "Title:")
    && !(pyStartsWith (authorsLineOf as) "Year:")
    && pyStartsWith (authorsLineOf as) "Authors:"
    && ((pySplitOn (pyDrop (authorsLineOf as) 8) ',').map pyStrip == as)

/-- Well-formedness of a whole block. -/
def wfBlock (b : Block) : Bool :=
  (pyStrip (titleLineOf b) == titleLineOf b)
  && !(titleLineOf b == "")
  && pyStartsWith (titleLineOf b) "Title:"
  && (pyStrip (pyDrop (titleLineOf b) 6) == b.title)
  && !(b.title == "")
  && wfYearLine b.year
  && wfAuthorsLine b.authors

/-- Blocks laid out back to back: each new Title line closes the previous
block. -/
def renderNoSep (bs : List Block) : List String := (bs.map renderBlock).flatten

/-- Blocks separated by blank lines. -/
def renderSep : List Block → List String
  | [] => []
  | [b] => renderBlock b
  | b :: b2 :: bs => renderBlock b ++ "" :: renderSep (b2 :: bs)

/-- The scenario block of the round-trip property. -/
def blockAttention : Block :=
  { title := "Attention Is All You Need", year := some 2017,
    authors := some ["Ashish Vaswani", "Noam Shazeer"] }

/-- A second, minimal block. -/
def blockDeep : Block := { title := "Deep Learning" }

/-! ## Theorems -/

/-- C7 (amended): titles_match holds exactly when the two normalized titles
are equal, where normalization lower-cases and strips every character that is
not a word character (letter, digit or underscore) and not whitespace; the
normalized form of any string contains only letters, digits, underscores and
whitespace. -/
theorem title_matcher_normalization :
    (∀ a b : String, titlesMatch a b = true ↔ normalizeTitle a = normalizeTitle b)
    ∧ (∀ (s : String) (c : Char), c ∈ (normalizeTitle s).data →
        c.isAlphanum = true ∨ c = '_' ∨ c.isWhitespace = true) := by
  constructor
  · intro a b
    simp [titlesMatch]
  · intro s c hc
    simp only [normalizeTitle, List.mem_filter] at hc
    have h := hc.2
    simp only [isWordChar, Bool.or_eq_true] at h
    rcases h with (h | h) | h
    · exact Or.inl h
    · exact Or.inr (Or.inl (by simpa using h))
    · exact Or.inr (Or.inr h)

/-- C7 witness: the underscore of "a_ b" survives normalization and is a
word character. -/
theorem title_matcher_normalization_witness :
    '_' ∈ (normalizeTitle "a_ b").data ∧
      ('_'.isAlphanum = true ∨ '_' = '_' ∨ '_'.isWhitespace = true) :=
  ⟨by decide, title_matcher_normalization.2 "a_ b" '_' (by decide)⟩

/-- C7 counterexample: the implementation keeps underscores (the regular
expression class \w contains them), so the claim's normalization — keep only
letters, digits and whitespace — disagrees with the code: the titles "a_" and
"a" are equal under the claim's normalization but titles_match rejects them,
and the normalized form of "a_" contains a character that is neither a letter,
a digit, nor whitespace. -/
theorem title_matcher_keeps_underscore :
    titlesMatch "a_" "a" = false
    ∧ specNormalizeTitle "a_" = specNormalizeTitle "a"
    ∧ normalizeTitle "a_" = "a_"
    ∧ ('_' ∈ (normalizeTitle "a_").data
        ∧ ¬ ('_'.isAlphanum = true ∨ '_'.isWhitespace = true)) := by
  decide

/-- C10: the /citations/ request validator rejects text with an embedded
newline, then text longer than 3000 characters — with a message that names a
1500-character limit — then text that is empty after stripping, and otherwise
passes the stripped text. -/
theorem paragraph_validator_spec (s : String) :
    (s.data.contains '\n' = true →
      validateParagraph s = .error "Text must be a single paragraph (no line breaks)")
    ∧ (s.data.contains '\n' = false → 3000 < s.data.length →
      validateParagraph s = .error "Text must not exceed 1500 characters")
    ∧ (s.data.contains '\n' = false → s.data.length ≤ 3000 →
        (pyStrip s).data.length = 0 → validateParagraph s = .error "Text cannot be empty")
    ∧ (s.data.contains '\n' = false → s.data.length ≤ 3000 →
        (pyStrip s).data.length ≠ 0 → validateParagraph s = .ok (pyStrip s)) := by
  have hlen : ∀ u : String, u.length = u.data.length := fun u => rfl
  refine ⟨fun h => ?_, fun h hl => ?_, fun h hl he => ?_, fun h hl he => ?_⟩
  · have hm : '\n' ∈ s.data := by simpa using h
    simp [validateParagraph, hm]
  · have hm : '\n' ∉ s.data := by simpa using h
    have hl' : 3000 < s.length := by rw [hlen]; exact hl
    simp [validateParagraph, hm, hl']
  · have hm : '\n' ∉ s.data := by simpa using h
    have hl' : ¬ 3000 < s.length := by rw [hlen]; omega
    have he' : (pyStrip s).length = 0 := by rw [hlen]; exact he
    simp [validateParagraph, hm, hl', he']
  · have hm : '\n' ∉ s.data := by simpa using h
    have hl' : ¬ 3000 < s.length := by rw [hlen]; omega
    have he' : ¬ (pyStrip s).length = 0 := by rw [hlen]; exact he
    simp [validateParagraph, hm, hl', he']

/-- C10 witness: each of the four branches at a concrete input. -/
theorem paragraph_validator_spec_witness :
    ("a\nb".data.contains '\n' = true
      ∧ validateParagraph "a\nb" = .error "Text must be a single paragraph (no line breaks)")
    ∧ (" hi ".data.contains '\n' = false ∧ " hi ".data.length ≤ 3000
      ∧ (pyStrip " hi ").data.length ≠ 0 ∧ validateParagraph " hi " = .ok "hi")
    ∧ ("  ".data.contains '\n' = false ∧ "  ".data.length ≤ 3000
      ∧ (pyStrip "  ").data.length = 0 ∧ validateParagraph "  " = .error "Text cannot be empty") :=
  ⟨⟨by decide, (paragraph_validator_spec "a\nb").1 (by decide)⟩,
   ⟨by decide, by decide, by decide,
    (paragraph_validator_spec " hi ").2.2.2 (by decide) (by decide) (by decide)⟩,
   ⟨by decide, by decide, by decide,
    (paragraph_validator_spec "  ").2.2.1 (by decide) (by decide) (by decide)⟩⟩

/-- C2 (amended): an empty candidate sequence into either Validator yields
an empty output with no external calls.  Neither Expander satisfies the
claim: the ReferenceBuilder Expander issues no external call on empty input
but raises (UnboundLocalError: author_papers is only bound inside the
per-paper loop) instead of yielding an empty output, and the
CitationPipeline Expander issues the key-author reasoning call even on empty
input (see the counterexample). -/
theorem empty_input_no_calls (orb : RBOracle) (ocp : CPOracle) (t : String) :
    rbValidatePapers orb [] = ([], [])
    ∧ cpValidatePapers ocp [] = ([], [])
    ∧ rbExpand orb [] t = (.error (), []) :=
  ⟨rfl, rfl, rfl⟩

/-- C1 counterexample: in the CitationPipeline validator's fuzzy fallback,
when no ranked result matches, the interactive prompt lets the run accept a
result by number without any title check: with the title search returning one
result titled "B" and the stdin answer "1", the candidate titled "A" is
emitted as validated while its title fails titles_match against the index
result it was built from. -/
theorem cpValidator_user_choice_unsound :
    cpValidateOne cpOracleUserPick candA = (some (pickedA, resMismatch), [Call.titleQ "A"])
    ∧ titlesMatch pickedA.title resMismatch.title = false :=
  ⟨rfl, by decide⟩

/-- C2 counterexample: the CitationPipeline expander issues the key-author
chat call — and then an author search, and here even the relevance-filter
chat call — although the validated input sequence is empty. -/
theorem cpExpander_calls_on_empty_input :
    cpExpand cpOracleSelectNone [] "t" = ([], [Call.llm, Call.authorQ "X", Call.llm])
    ∧ ([Call.llm, Call.authorQ "X", Call.llm] : List Call) ≠ [] :=
  ⟨rfl, by decide⟩

/-- C3 counterexample: a run of the ReferenceBuilder expander in which the
author expansion rediscovers the validated record (same canonicalId "U").
The merged pool keeps one entry for "U", but with the fields of the later
author-expansion occurrence: its provenance is "author_search", not the
"initial" provenance of the first occurrence, refuting "first occurrence
wins ... keeps the provenance of its first occurrence". -/
theorem rbDedup_last_occurrence_wins :
    rbInitial [validatedU] = [initU]
    ∧ (rbAuthorPapers rbOracleDupU [validatedU]).1 = some [dupPoolPaper]
    ∧ rbPool rbOracleDupU [validatedU] = [dupPoolPaper]
    ∧ initU.url = dupPoolPaper.url
    ∧ initU.source = "initial"
    ∧ dupPoolPaper.source = "author_search" :=
  ⟨rfl, rfl, rfl, rfl, rfl, rfl⟩

/-- C4 counterexample: a CitationPipeline expander run in which the ranking
answer selects nothing, yet the validated record still appears in the
output — validated records bypass the ranking gate there (and the ranking
call is given only the author-search papers, never the validated ones). -/
theorem cpExpander_validated_bypass_ranking :
    cpExpand cpOracleSelectNone [validatedCP] "t"
      = ([validatedCP], [Call.llm, Call.authorQ "X", Call.llm])
    ∧ cpParseRelLines [authorPaperB]
        (pySplitOn (pyStrip (cpOracleSelectNone.rankResp "t" [authorPaperB])) '\n') {} = [] :=
  ⟨rfl, rfl⟩

/-- C5 counterexample: a ranking answer that names the same url twice makes
the ReferenceBuilder expander emit the same record twice, so two entries of
the final sequence share a canonicalId. -/
theorem rbFinal_duplicate_canonicalId :
    (rbExpand rbOracleTwiceU2 [validatedU1] "t").1 = .ok [selectedU2, selectedU2]
    ∧ ¬ ([selectedU2, selectedU2].map PaperD.url).Nodup :=
  ⟨rfl, by decide⟩

/-- C8 counterexample: the direct-locator path accepts although the
identifier query returned two results, not exactly one: the code only asks
for a non-empty result list whose first title matches. -/
theorem direct_path_accepts_two_results :
    rbOracleTwoResults.idQuery "1234" = .ok [resMatchA, resU]
    ∧ [resMatchA, resU].length ≠ 1
    ∧ rbValidateOne rbOracleTwoResults suggAUrl
        = (some (enrichedA, resMatchA), [Call.idQ "1234"]) :=
  ⟨rfl, by decide, rfl⟩

/-- C9 counterexample: a backslash in a title passes through generate_bibtex
unescaped: the cleaning step only substitutes newlines and braces. -/
theorem bibtex_backslash_unescaped :
    bibtexCleanTitle "a\\b" = "a\\b" ∧ '\\' ∈ "a\\b".data :=
  ⟨rfl, by decide⟩

/-- Soundness of the title-search fallback of the ReferenceBuilder
validator: an accepted record's title matches the title of the index result
it was built from. -/
theorem rbFindByTitle_sound (o : RBOracle) (p q : SuggestedPaper) (r : ArxivResult)
    (c : List Call) (h : rbFindByTitle o p = (some (q, r), c)) :
    titlesMatch q.title r.title = true := by
  simp only [rbFindByTitle] at h
  split at h
  · simp at h
  · split at h
    · rename_i r' hf
      have hm : titlesMatch p.title r'.title = true := by
        have := List.find?_some hf
        simpa using this
      simp only [Prod.mk.injEq, Option.some.injEq] at h
      obtain ⟨⟨hq', hr'⟩, -⟩ := h
      have ht : q.title = p.title := by rw [← hq']; rfl
      rw [ht, ← hr']
      exact hm
    · simp at h

/-- C1 (amended): the ReferenceBuilder Validator never emits a record whose
title fails titles_match against the title of the index result it was built
from — on the direct-locator path and on the fuzzy-title fallback alike.
(The CitationPipeline copy shares this except for its interactive selection
branch; see the counterexample.) -/
theorem rbValidator_soundness (o : RBOracle) (p q : SuggestedPaper) (r : ArxivResult)
    (c : List Call) (h : rbValidateOne o p = (some (q, r), c)) :
    titlesMatch q.title r.title = true := by
  simp only [rbValidateOne] at h
  split at h
  · exact rbFindByTitle_sound o p q r c h
  · rename_i u hu
    split at h
    · split at h
      · rename_i e hq
        simp only [Prod.mk.injEq] at h
        obtain ⟨h1, -⟩ := h
        exact rbFindByTitle_sound o p q r (rbFindByTitle o p).2 (by rw [← h1])
      · rename_i results hq
        split at h
        · simp only [Prod.mk.injEq] at h
          obtain ⟨h1, -⟩ := h
          exact rbFindByTitle_sound o p q r (rbFindByTitle o p).2 (by rw [← h1])
        · rename_i r0 rest
          split at h
          · rename_i hm
            simp only [Prod.mk.injEq, Option.some.injEq] at h
            obtain ⟨⟨hq', hr'⟩, -⟩ := h
            have ht : q.title = p.title := by rw [← hq']; rfl
            rw [ht, ← hr']
            exact hm
          · simp only [Prod.mk.injEq] at h
            obtain ⟨h1, -⟩ := h
            exact rbFindByTitle_sound o p q r (rbFindByTitle o p).2 (by rw [← h1])
    · exact rbFindByTitle_sound o p q r c h

/-- C1 witness: a run in which the fallback accepts, and the emitted record's
title matches the source result's title. -/
theorem rbValidator_soundness_witness :
    rbValidateOne rbOracleTitleHit suggA = (some (enrichedA, resMatchA), [Call.titleQ "A"])
    ∧ titlesMatch enrichedA.title resMatchA.title = true :=
  ⟨by rfl,
   rbValidator_soundness rbOracleTitleHit suggA enrichedA resMatchA [Call.titleQ "A"] (by rfl)⟩

/-- C8 (amended): the direct-locator path accepts exactly under these
conditions: a locator is present, parses to a non-empty index identifier
from an arxiv.org url, and the identifier query returns at least one result
whose first result's title matches the candidate's title — "exactly one
result" is not required (see the counterexample).  On acceptance the record
is enriched with the authoritative authors, year, abstract and pdf locator
of that first result, and the fuzzy fallback issues no call for this
candidate (the trace is the single identifier query). -/
theorem direct_path_acceptance (o : RBOracle) (p : SuggestedPaper) (u : String)
    (r : ArxivResult) (rs : List ArxivResult)
    (hu : p.arxiv_url = some u)
    (hc : pyContains u "arxiv.org" = true)
    (hn : lastSegment u ≠ "")
    (hq : o.idQuery (lastSegment u) = .ok (r :: rs))
    (hm : titlesMatch p.title r.title = true) :
    rbValidateOne o p = (some (p.enrich r, r), [Call.idQ (lastSegment u)]) := by
  simp [rbValidateOne, hu, hq, hc, hn, hm]

/-- C8 witness: the direct path at a concrete candidate and a concrete
single-result identifier query. -/
theorem direct_path_acceptance_witness :
    (suggAUrl.arxiv_url = some "https://arxiv.org/abs/1234"
      ∧ pyContains "https://arxiv.org/abs/1234" "arxiv.org" = true
      ∧ lastSegment "https://arxiv.org/abs/1234" ≠ ""
      ∧ titlesMatch suggAUrl.title resMatchA.title = true)
    ∧ rbValidateOne rbOracleOneResult suggAUrl
        = (some (suggAUrl.enrich resMatchA, resMatchA),
           [Call.idQ (lastSegment "https://arxiv.org/abs/1234")]) :=
  ⟨⟨by rfl, by decide, by decide, by decide⟩,
   direct_path_acceptance rbOracleOneResult suggAUrl "https://arxiv.org/abs/1234"
     resMatchA [] (by rfl) (by decide) (by decide) (by rfl) (by decide)⟩

/-- The seen-set dedup keeps, for each key, exactly the first paper of the
input carrying it. -/
theorem cpDedupAux_mem (l : List Paper) : ∀ (seen : List (Option String)) (x : Paper),
    x ∈ cpDedupAux l seen →
      x.arxiv_id ∉ seen ∧ l.find? (fun y => y.arxiv_id == x.arxiv_id) = some x := by
  induction l with
  | nil => intro seen x hx; simp [cpDedupAux] at hx
  | cons p ps ih =>
    intro seen x hx
    simp only [cpDedupAux] at hx
    by_cases hp : p.arxiv_id ∈ seen
    · rw [if_pos hp] at hx
      obtain ⟨hns, hfind⟩ := ih seen x hx
      have hne : (p.arxiv_id == x.arxiv_id) = false := by
        rw [beq_eq_false_iff_ne]
        intro he
        exact hns (he ▸ hp)
      refine ⟨hns, ?_⟩
      rw [List.find?_cons_of_neg _ (by simp [hne]), hfind]
    · rw [if_neg hp] at hx
      rcases List.mem_cons.mp hx with hx | hx
      · subst hx
        exact ⟨hp, List.find?_cons_of_pos _ (by simp)⟩
      · obtain ⟨hns, hfind⟩ := ih _ x hx
        have hx1 : x.arxiv_id ≠ p.arxiv_id := fun he => hns (by simp [he])
        have hx2 : x.arxiv_id ∉ seen := fun he => hns (by simp [he])
        refine ⟨hx2, ?_⟩
        rw [List.find?_cons_of_neg _ (by simp [Ne.symm hx1]), hfind]

/-- Well-formedness of the url-keyed dictionary: every entry is keyed by its
value's url, and keys are distinct. -/
def DictWf (d : List (Option String × PaperD)) : Prop :=
  (∀ e ∈ d, e.1 = e.2.url) ∧ (d.map Prod.fst).Nodup

/-- The keys after an upsert: unchanged when the key is present, appended
otherwise. -/
theorem dictUpsert_keys (d : List (Option String × PaperD)) (k : Option String) (v : PaperD) :
    (dictUpsert d k v).map Prod.fst
      = if k ∈ d.map Prod.fst then d.map Prod.fst else d.map Prod.fst ++ [k] := by
  induction d with
  | nil => simp [dictUpsert]
  | cons e rest ih =>
    by_cases hk : e.1 = k
    · simp [dictUpsert, hk]
    · simp only [dictUpsert, if_neg hk, List.map_cons, ih]
      by_cases hm : k ∈ rest.map Prod.fst
      · simp [hm, Ne.symm hk]
      · simp [hm, Ne.symm hk]

/-- Upserting keeps every entry keyed by its value's url. -/
theorem dictUpsert_keyed : ∀ (d : List (Option String × PaperD)) (v : PaperD),
    (∀ e ∈ d, e.1 = e.2.url) → ∀ e ∈ dictUpsert d v.url v, e.1 = e.2.url
  | [], v, _h, e, he => by
      simp [dictUpsert] at he
      simp [he]
  | e0 :: rest, v, h, e, he => by
      by_cases hk : e0.1 = v.url
      · rw [dictUpsert, if_pos hk] at he
        rcases List.mem_cons.mp he with he' | he'
        · simp [he', hk]
        · exact h e (List.mem_cons_of_mem _ he')
      · rw [dictUpsert, if_neg hk] at he
        rcases List.mem_cons.mp he with he' | he'
        · exact he' ▸ h e0 (List.mem_cons_self _ _)
        · exact dictUpsert_keyed rest v
            (fun e' he'' => h e' (List.mem_cons_of_mem _ he'')) e he'

/-- Upserting a value under its own url preserves well-formedness. -/
theorem dictUpsert_wf (d : List (Option String × PaperD)) (v : PaperD)
    (hd : DictWf d) : DictWf (dictUpsert d v.url v) := by
  obtain ⟨h1, h2⟩ := hd
  refine ⟨dictUpsert_keyed d v h1, ?_⟩
  rw [dictUpsert_keys]
  split
  · exact h2
  · rename_i hm
    refine List.Nodup.append h2 (List.nodup_singleton _) ?_
    intro b hb hbm
    simp only [List.mem_singleton] at hbm
    exact hm (hbm ▸ hb)

/-- A value of the dictionary after an upsert is the new value or an old
value under a different key. -/
theorem mem_dictUpsert_values : ∀ (d : List (Option String × PaperD)) (v x : PaperD),
    DictWf d → x ∈ (dictUpsert d v.url v).map Prod.snd →
      x = v ∨ (x ∈ d.map Prod.snd ∧ x.url ≠ v.url)
  | [], v, x, _hd, hx => by
      simp [dictUpsert] at hx
      exact Or.inl hx
  | e0 :: rest, v, x, ⟨h1, h2⟩, hx => by
      by_cases hk : e0.1 = v.url
      · rw [dictUpsert, if_pos hk] at hx
        simp only [List.map_cons] at hx
        rcases List.mem_cons.mp hx with hx' | hx'
        · exact Or.inl hx'
        · right
          obtain ⟨e, he, hev⟩ := List.mem_map.mp hx'
          refine ⟨?_, ?_⟩
          · simp only [List.map_cons]
            exact List.mem_cons_of_mem _ (List.mem_map.mpr ⟨e, he, hev⟩)
          · have hkey : e.1 = x.url := by
              rw [← hev]
              exact h1 e (List.mem_cons_of_mem _ he)
            have hne : e.1 ≠ e0.1 := by
              intro hcon
              simp only [List.map_cons] at h2
              exact (List.nodup_cons.mp h2).1 (hcon ▸ List.mem_map.mpr ⟨e, he, rfl⟩)
            rw [← hkey, ← hk]
            exact hne
      · rw [dictUpsert, if_neg hk] at hx
        simp only [List.map_cons] at hx
        rcases List.mem_cons.mp hx with hx' | hx'
        · right
          refine ⟨?_, ?_⟩
          · simp only [List.map_cons]
            rw [hx']
            exact List.mem_cons_self _ _
          · have hkey : e0.1 = x.url := by
              rw [hx']
              exact h1 e0 (List.mem_cons_self _ _)
            rw [← hkey]
            exact hk
        · have hwf : DictWf rest := by
            refine ⟨fun e' he' => h1 e' (List.mem_cons_of_mem _ he'), ?_⟩
            simp only [List.map_cons] at h2
            exact (List.nodup_cons.mp h2).2
          rcases mem_dictUpsert_values rest v x hwf hx' with h | ⟨hm, hne⟩
          · exact Or.inl h
          · refine Or.inr ⟨?_, hne⟩
            simp only [List.map_cons]
            exact List.mem_cons_of_mem _ hm

/-- The url-keyed dictionary built by a fold is well-formed. -/
theorem rbPoolDict_wf_aux : ∀ (l : List PaperD) (d : List (Option String × PaperD)),
    DictWf d → DictWf (l.foldl (fun d p => dictUpsert d p.url p) d)
  | [], _, hd => hd
  | p :: ps, d, hd => rbPoolDict_wf_aux ps (dictUpsert d p.url p) (dictUpsert_wf d p hd)

/-- The dictionary of a whole pool is well-formed. -/
theorem rbPoolDict_wf (l : List PaperD) : DictWf (rbPoolDict l) :=
  rbPoolDict_wf_aux l [] ⟨by simp, by simp⟩

/-- Every record the url-keyed dictionary keeps is the last record of the
input that carries its url. -/
theorem rbDedup_mem_last (l : List PaperD) (x : PaperD) (hx : x ∈ rbDedup l) :
    (l.filter (fun y => y.url == x.url)).getLast? = some x := by
  induction l using List.reverseRecOn with
  | nil => simp [rbDedup, rbPoolDict] at hx
  | append_singleton l p ih =>
    have hfold : rbPoolDict (l ++ [p]) = dictUpsert (rbPoolDict l) p.url p := by
      simp [rbPoolDict, List.foldl_append]
    rw [rbDedup, hfold] at hx
    rcases mem_dictUpsert_values (rbPoolDict l) p x (rbPoolDict_wf l) hx with hx' | ⟨hm, hne⟩
    · subst hx'
      rw [List.filter_append]
      have : List.filter (fun y => y.url == x.url) [x] = [x] := by simp
      rw [this, List.getLast?_concat]
    · have hp : (p.url == x.url) = false := by
        rw [beq_eq_false_iff_ne]
        exact fun he => hne he.symm
      rw [List.filter_append]
      have : List.filter (fun y => y.url == x.url) [p] = [] := by simp [hp]
      rw [this, List.append_nil]
      exact ih hm

/-- The author-expansion results surviving the per-paper loop are exactly
the last validated paper's (author_papers is re-initialized each
iteration). -/
theorem rbAuthorPapers_last (o : RBOracle) (v : List SuggestedPaper) (p : SuggestedPaper) :
    (rbAuthorPapers o (v ++ [p])).1 = some (rbAuthorLoop o p (rbKeyAuthorsOf o p)).1 := by
  induction v with
  | nil => rfl
  | cons p0 v' ih =>
    cases v' with
    | nil => exact ih
    | cons p1 v'' => exact ih

/-- C3 (amended): the merged pool is the validated set together with the
author-expansion candidates that survive the expansion loop, deduplicated by
canonicalId.  In the CitationPipeline expander the first occurrence wins
outright: every kept record is the first input record carrying its arxiv_id.
In the ReferenceBuilder expander only the LAST validated record's
author-expansion candidates reach the merge (author_papers is re-initialized
inside the per-paper loop), and the dictionary comprehension keeps each
url's position of first insertion but the fields of the LAST occurrence, so
a record reached twice keeps the provenance of its last occurrence (see the
counterexample). -/
theorem merge_dedup_characterization :
    (∀ (l : List Paper) (x : Paper), x ∈ cpDedup l →
        l.find? (fun y => y.arxiv_id == x.arxiv_id) = some x)
    ∧ (∀ (l : List PaperD) (x : PaperD), x ∈ rbDedup l →
        (l.filter (fun y => y.url == x.url)).getLast? = some x)
    ∧ (∀ (o : RBOracle) (v : List SuggestedPaper) (p : SuggestedPaper),
        (rbAuthorPapers o (v ++ [p])).1 = some (rbAuthorLoop o p (rbKeyAuthorsOf o p)).1)
    ∧ (∀ (o : RBOracle) (v : List SuggestedPaper),
        rbPool o v = rbDedup (rbInitial v ++ ((rbAuthorPapers o v).1.getD []))) :=
  ⟨fun l x hx => (cpDedupAux_mem l [] x hx).2,
   rbDedup_mem_last,
   rbAuthorPapers_last,
   fun _ _ => rfl⟩

/-- C3 witness: the characterizations at concrete pools, and the discard of
the first validated record's expansion candidates at a concrete two-record
input. -/
theorem merge_dedup_characterization_witness :
    (validatedCP ∈ cpDedup [validatedCP, validatedCP]
      ∧ [validatedCP, validatedCP].find?
          (fun y => y.arxiv_id == validatedCP.arxiv_id) = some validatedCP)
    ∧ (dupPoolPaper ∈ rbDedup [initU, dupPoolPaper]
      ∧ ([initU, dupPoolPaper].filter
          (fun y => y.url == dupPoolPaper.url)).getLast? = some dupPoolPaper)
    ∧ (rbAuthorPapers rbOracleDupU ([validatedU1] ++ [validatedU])).1
        = some (rbAuthorLoop rbOracleDupU validatedU
            (rbKeyAuthorsOf rbOracleDupU validatedU)).1 :=
  ⟨⟨by decide, merge_dedup_characterization.1 [validatedCP, validatedCP] validatedCP (by decide)⟩,
   ⟨by decide, merge_dedup_characterization.2.1 [initU, dupPoolPaper] dupPoolPaper (by decide)⟩,
   merge_dedup_characterization.2.2.1 rbOracleDupU [validatedU1] validatedU⟩

/-- Every record the selection loop keeps was named by some parsed
selection. -/
theorem rbFinalAux_selected : ∀ (pool : List PaperD) (sels : List Selection) (l : List PaperD),
    rbFinalAux pool sels = .ok l → ∀ x ∈ l, ∃ sel ∈ sels, x.url = some sel.url
  | pool, [], l, h, x, hx => by
      simp only [rbFinalAux, Except.ok.injEq] at h
      subst h
      simp at hx
  | pool, sel :: rest, l, h, x, hx => by
      simp only [rbFinalAux] at h
      split at h
      · obtain ⟨s, hs, hu⟩ := rbFinalAux_selected pool rest l h x hx
        exact ⟨s, List.mem_cons_of_mem _ hs, hu⟩
      · rename_i p hfind
        split at h
        · exact absurd h (by simp)
        · rename_i why hwhy
          split at h
          · exact absurd h (by simp)
          · rename_i tail htail
            simp only [Except.ok.injEq] at h
            subst h
            rcases List.mem_cons.mp hx with hx' | hx'
            · refine ⟨sel, List.mem_cons_self _ _, ?_⟩
              have hpu : p.url = some sel.url := by
                have := List.find?_some hfind
                simpa using this
              rw [hx']
              exact hpu
            · obtain ⟨s, hs, hu⟩ := rbFinalAux_selected pool rest tail htail x hx'
              exact ⟨s, List.mem_cons_of_mem _ hs, hu⟩

/-- C4 (amended): in the ReferenceBuilder expander, the re-ranking call is
given the whole merged pool — the validated records together with the
author-expansion candidates that survive the expansion loop (the last
validated record's) — and only records the ranking step explicitly selects
appear in the output; in particular a validated record the ranking step does
not select is excluded.  (In the CitationPipeline expander the ranking call
receives only the author-search papers and validated records bypass the
gate; see the counterexample.) -/
theorem rbRanking_gate (o : RBOracle) (v : List SuggestedPaper) (t : String) (l : List PaperD)
    (h : (rbExpand o v t).1 = .ok l) :
    (∀ x ∈ l, ∃ sel ∈ rbSelections o v t, x.url = some sel.url)
    ∧ rbSelections o v t
        = parseSelLines (pySplitOn (pyStrip (o.rankResp t (rbPool o v))) '\n') {} := by
  refine ⟨?_, rfl⟩
  simp only [rbExpand] at h
  split at h
  · simp at h
  · split at h
    · exact rbFinalAux_selected (rbPool o v) (rbSelections o v t) l (by simpa using h)
    · have hl : l = [] := by simpa using h.symm
      subst hl
      simp

/-- C4 witness: a run in which the ranking answer selects the single url U2,
and indeed every output record is a selected one. -/
theorem rbRanking_gate_witness :
    (rbExpand rbOracleOnceU2 [validatedU1] "t").1 = .ok [selectedU2]
    ∧ ∀ x ∈ [selectedU2], ∃ sel ∈ rbSelections rbOracleOnceU2 [validatedU1] "t",
        x.url = some sel.url :=
  ⟨by rfl,
   (rbRanking_gate rbOracleOnceU2 [validatedU1] "t" [selectedU2] (by rfl)).1⟩

/-- The urls of the selection loop's output form a sublist of the urls the
ranking step selected, in order. -/
theorem rbFinalAux_sublist : ∀ (pool : List PaperD) (sels : List Selection) (l : List PaperD),
    rbFinalAux pool sels = .ok l →
      (l.map PaperD.url).Sublist (sels.map (fun s => some s.url))
  | pool, [], l, h => by
      simp only [rbFinalAux, Except.ok.injEq] at h
      subst h
      simp
  | pool, sel :: rest, l, h => by
      simp only [rbFinalAux] at h
      split at h
      · exact (rbFinalAux_sublist pool rest l h).cons _
      · rename_i p hfind
        split at h
        · exact absurd h (by simp)
        · rename_i why hwhy
          split at h
          · exact absurd h (by simp)
          · rename_i tail htail
            simp only [Except.ok.injEq] at h
            subst h
            have hpu : p.url = some sel.url := by
              have := List.find?_some hfind
              simpa using this
            simp only [List.map_cons]
            have hhd : ({ p with selectionReason := some why } : PaperD).url = some sel.url := hpu
            rw [hhd]
            exact (rbFinalAux_sublist pool rest tail htail).cons₂ _

/-- C5 (amended): when the ranking step's parsed selections name each
canonicalId at most once, no two entries of the ReferenceBuilder expander's
final sequence share a canonicalId (without that proviso the claim fails;
see the counterexample). -/
theorem rbFinal_nodup_of_distinct_selections (o : RBOracle) (v : List SuggestedPaper)
    (t : String) (l : List PaperD)
    (h : (rbExpand o v t).1 = .ok l)
    (hsel : ((rbSelections o v t).map Selection.url).Nodup) :
    (l.map PaperD.url).Nodup := by
  simp only [rbExpand] at h
  split at h
  · simp at h
  · split at h
    · have hsub := rbFinalAux_sublist (rbPool o v) (rbSelections o v t) l (by simpa using h)
      have hmap : ((rbSelections o v t).map (fun s => some s.url)).Nodup := by
        have : (rbSelections o v t).map (fun s => some s.url)
            = ((rbSelections o v t).map Selection.url).map some := by
          simp [List.map_map]
        rw [this]
        exact hsel.map (fun a b hab => Option.some.inj hab)
      exact hmap.sublist hsub
    · have hl : l = [] := by simpa using h.symm
      subst hl
      simp

/-- C5 witness: with a single selection the final urls are distinct. -/
theorem rbFinal_nodup_witness :
    ((rbExpand rbOracleOnceU2 [validatedU1] "t").1 = .ok [selectedU2]
      ∧ ((rbSelections rbOracleOnceU2 [validatedU1] "t").map Selection.url).Nodup)
    ∧ ([selectedU2].map PaperD.url).Nodup :=
  ⟨⟨by rfl, by decide⟩,
   rbFinal_nodup_of_distinct_selections rbOracleOnceU2 [validatedU1] "t" [selectedU2]
     (by rfl) (by decide)⟩

/-- A one-character replace distributes over appending. -/
theorem replaceChar_append (l₁ l₂ : List Char) (c : Char) (rep : List Char) :
    replaceChar (l₁ ++ l₂) c rep = replaceChar l₁ c rep ++ replaceChar l₂ c rep := by
  simp [replaceChar]

/-- A one-character replace on a cons. -/
theorem replaceChar_cons (a : Char) (l : List Char) (c : Char) (rep : List Char) :
    replaceChar (a :: l) c rep = (if a = c then rep else [a]) ++ replaceChar l c rep := by
  simp [replaceChar]

/-- The three sequential replaces of generate_bibtex act as one per-character
substitution. -/
theorem bibtexClean_eq_sub (l : List Char) :
    replaceChar (replaceChar (replaceChar l '\n' [' ']) '{' ['\\', '{']) '}' ['\\', '}']
      = (l.map bibtexCharSub).flatten := by
  induction l with
  | nil => simp [replaceChar]
  | cons a l ih =>
    rw [replaceChar_cons, replaceChar_append, replaceChar_append, ih]
    congr 1
    by_cases h1 : a = '\n'
    · subst h1; rfl
    · by_cases h2 : a = '{'
      · subst h2; rfl
      · by_cases h3 : a = '}'
        · subst h3; rfl
        · simp [replaceChar, bibtexCharSub, h1, h2, h3]

/-- The substituted stream never shows a bare brace, whatever escape state
the scan starts in. -/
theorem noBareBrace_flatten (l : List Char) :
    ∀ esc : Bool, noBareBraceAux esc ((l.map bibtexCharSub).flatten) = true := by
  induction l with
  | nil => intro esc; rfl
  | cons a l ih =>
    intro esc
    simp only [List.map_cons, List.flatten_cons]
    by_cases ha : a = '\n'
    · subst ha
      have step : noBareBraceAux esc (' ' :: (l.map bibtexCharSub).flatten)
          = noBareBraceAux false ((l.map bibtexCharSub).flatten) := rfl
      rw [show bibtexCharSub '\n' = [' '] from rfl, List.singleton_append, step]
      exact ih false
    · by_cases hb : a = '{'
      · subst hb
        have step : noBareBraceAux esc ('\\' :: '{' :: (l.map bibtexCharSub).flatten)
            = noBareBraceAux false ((l.map bibtexCharSub).flatten) := rfl
        rw [show bibtexCharSub '{' = ['\\', '{'] from rfl]
        rw [show ('\\' :: ['{'] : List Char) ++ (l.map bibtexCharSub).flatten
              = '\\' :: '{' :: (l.map bibtexCharSub).flatten from rfl, step]
        exact ih false
      · by_cases hc : a = '}'
        · subst hc
          have step : noBareBraceAux esc ('\\' :: '}' :: (l.map bibtexCharSub).flatten)
              = noBareBraceAux false ((l.map bibtexCharSub).flatten) := rfl
          rw [show bibtexCharSub '}' = ['\\', '}'] from rfl]
          rw [show ('\\' :: ['}'] : List Char) ++ (l.map bibtexCharSub).flatten
                = '\\' :: '}' :: (l.map bibtexCharSub).flatten from rfl, step]
          exact ih false
        · have hsub : bibtexCharSub a = [a] := by
            simp [bibtexCharSub, ha, hb, hc]
          rw [hsub, List.singleton_append]
          show noBareBraceAux esc (a :: (l.map bibtexCharSub).flatten) = true
          simp only [noBareBraceAux]
          rw [if_neg (fun hor => hor.elim hb hc)]
          exact ih _

/-- C9 (amended): every brace occurring in the title of a generated entry is
escaped (immediately preceded by a backslash) and newlines are replaced by
spaces, but backslashes are NOT escaped: a title free of newlines and braces
— such as one containing a backslash — passes through unchanged (see the
counterexample). -/
theorem bibtex_title_escaping :
    (∀ t : String, noBareBrace (bibtexCleanTitle t).data = true)
    ∧ bibtexCleanTitle "a\\b" = "a\\b" := by
  constructor
  · intro t
    show noBareBrace
      (replaceChar (replaceChar (replaceChar t.data '\n' [' ']) '{' ['\\', '{']) '}' ['\\', '}'])
        = true
    rw [bibtexClean_eq_sub]
    exact noBareBrace_flatten t.data false
  · rfl


/-- Reading a well-formed Title line: the pending record is flushed and a
fresh dictionary holding the new title is started. -/
theorem parse_title_step (b : Block) (rest : List String) (cur : CurPaper)
    (ht1 : pyStrip (titleLineOf b) = titleLineOf b)
    (ht2 : ¬ (titleLineOf b = ""))
    (ht3 : pyStartsWith (titleLineOf b) "Title:" = true)
    (ht4 : pyStrip (pyDrop (titleLineOf b) 6) = b.title) :
    parseLines (titleLineOf b :: rest) cur
      = cur.flush ++ parseLines rest { title := some b.title } := by
  simp only [parseLines, ht1, ht4]
  rw [if_neg ht2, if_pos ht3]

/-- Reading a well-formed Year line updates the year field of the current
dictionary. -/
theorem parse_year_step (y : Int) (rest : List String) (cur : CurPaper)
    (hy : wfYearLine (some y) = true) :
    parseLines (yearLineOf y :: rest) cur
      = parseLines rest { cur with year := some y } := by
  simp only [wfYearLine, Bool.and_eq_true, beq_iff_eq, Bool.not_eq_true',
    beq_eq_false_iff_ne] at hy
  obtain ⟨⟨⟨⟨hy1, hy2⟩, hy3⟩, hy4⟩, hy5⟩ := hy
  simp only [parseLines, hy1, hy5]
  rw [if_neg hy2, if_neg (by rw [hy3]; exact Bool.false_ne_true), if_pos hy4]

/-- Reading a well-formed Authors line updates the authors field of the
current dictionary. -/
theorem parse_authors_step (as : List String) (rest : List String) (cur : CurPaper)
    (ha : wfAuthorsLine (some as) = true) :
    parseLines (authorsLineOf as :: rest) cur
      = parseLines rest { cur with authors := some as } := by
  simp only [wfAuthorsLine, Bool.and_eq_true, beq_iff_eq, Bool.not_eq_true',
    beq_eq_false_iff_ne] at ha
  obtain ⟨⟨⟨⟨⟨ha1, ha2⟩, ha3⟩, ha4⟩, ha5⟩, ha6⟩ := ha
  simp only [parseLines, ha1, ha6]
  rw [if_neg ha2, if_neg (by rw [ha3]; exact Bool.false_ne_true),
    if_neg (by rw [ha4]; exact Bool.false_ne_true), if_pos ha5]

/-- Reading one whole well-formed block: the pending record is flushed and
the dictionary afterwards holds exactly the block's fields. -/
theorem parse_block_step (b : Block) (hb : wfBlock b = true) (rest : List String) (cur : CurPaper) :
    parseLines (renderBlock b ++ rest) cur = cur.flush ++ parseLines rest (curOf b) := by
  simp only [wfBlock, Bool.and_eq_true, beq_iff_eq, Bool.not_eq_true',
    beq_eq_false_iff_ne] at hb
  obtain ⟨⟨⟨⟨⟨⟨ht1, ht2⟩, ht3⟩, ht4⟩, ht5⟩, hy⟩, ha⟩ := hb
  simp only [renderBlock, List.cons_append, List.append_assoc]
  rw [parse_title_step b _ cur ht1 ht2 ht3 ht4]
  congr 1
  cases hyo : b.year with
  | none =>
    rw [hyo] at hy
    simp only [hyo, Option.map_none', Option.toList_none, List.nil_append]
    cases hao : b.authors with
    | none =>
      rw [hao] at ha
      simp only [hao, Option.map_none', Option.toList_none, List.nil_append]
      rw [show curOf b = { title := some b.title } by simp only [curOf, hyo, hao]]
    | some as =>
      rw [hao] at ha
      simp only [hao, Option.map_some', Option.toList_some, List.singleton_append]
      rw [parse_authors_step as rest _ ha]
      rw [show curOf b = { title := some b.title, authors := some as } by
        simp only [curOf, hyo, hao]]
  | some y =>
    rw [hyo] at hy
    simp only [hyo, Option.map_some', Option.toList_some, List.singleton_append]
    rw [parse_year_step y _ _ hy]
    cases hao : b.authors with
    | none =>
      rw [hao] at ha
      simp only [hao, Option.map_none', Option.toList_none, List.nil_append]
      rw [show curOf b = { title := some b.title, year := some y } by
        simp only [curOf, hyo, hao]]
    | some as =>
      rw [hao] at ha
      simp only [hao, Option.map_some', Option.toList_some, List.singleton_append]
      rw [parse_authors_step as rest _ ha]
      rw [show curOf b = { title := some b.title, year := some y, authors := some as } by
        simp only [curOf, hyo, hao]]

/-- A well-formed block has a non-empty title. -/
theorem wfBlock_title_ne (b : Block) (hb : wfBlock b = true) : b.title ≠ "" := by
  simp only [wfBlock, Bool.and_eq_true, beq_iff_eq, Bool.not_eq_true',
    beq_eq_false_iff_ne] at hb
  exact hb.1.1.2

/-- Flushing the dictionary of a whole block emits exactly that block's
record. -/
theorem curOf_flush (b : Block) (ht5 : b.title ≠ "") : (curOf b).flush = [blockRecord b] := by
  have htd : (curOf b).titled = true := by
    simp [CurPaper.titled, curOf, ht5]
  rw [CurPaper.flush, if_pos htd]
  rfl

/-- Parsing label-delimited blocks (each new Title line closes the previous
block). -/
theorem parse_nosep (bs : List Block) (hwf : ∀ b ∈ bs, wfBlock b = true) :
    ∀ cur, parseLines (renderNoSep bs) cur = cur.flush ++ bs.map blockRecord := by
  induction bs with
  | nil => intro cur; simp [renderNoSep, parseLines]
  | cons b rest ih =>
    intro cur
    have hb := hwf b (List.mem_cons_self _ _)
    simp only [renderNoSep, List.map_cons, List.flatten_cons]
    rw [parse_block_step b hb _ cur]
    rw [show (rest.map renderBlock).flatten = renderNoSep rest from rfl]
    rw [ih (fun b' hb' => hwf b' (List.mem_cons_of_mem _ hb')) (curOf b)]
    rw [curOf_flush b (wfBlock_title_ne b hb)]
    simp

/-- Parsing blank-line-delimited blocks. -/
theorem parse_sep (bs : List Block) (hwf : ∀ b ∈ bs, wfBlock b = true) :
    ∀ cur, parseLines (renderSep bs) cur = cur.flush ++ bs.map blockRecord := by
  induction bs with
  | nil => intro cur; simp [renderSep, parseLines]
  | cons b rest ih =>
    intro cur
    have hb := hwf b (List.mem_cons_self _ _)
    cases rest with
    | nil =>
      rw [show renderSep [b] = renderBlock b ++ [] by simp [renderSep]]
      rw [parse_block_step b hb [] cur]
      rw [show parseLines [] (curOf b) = (curOf b).flush from rfl]
      rw [curOf_flush b (wfBlock_title_ne b hb)]
      simp
    | cons b2 rest2 =>
      rw [show renderSep (b :: b2 :: rest2) = renderBlock b ++ "" :: renderSep (b2 :: rest2)
        from rfl]
      rw [parse_block_step b hb _ cur]
      have hblank : parseLines ("" :: renderSep (b2 :: rest2)) (curOf b)
          = (curOf b).flush ++ parseLines (renderSep (b2 :: rest2)) {} := by
        simp only [parseLines]
        rw [if_pos (show pyStrip "" = "" from rfl)]
      rw [hblank, ih (fun b' hb' => hwf b' (List.mem_cons_of_mem _ hb')) {}]
      rw [curOf_flush b (wfBlock_title_ne b hb)]
      rw [show ({} : CurPaper).flush = [] from rfl]
      simp

/-- C6: for every sequence of N well-formed field blocks, each with a
non-empty title, the Record Parser produces exactly those N records with
matching fields, whether the blocks are separated by blank lines or close
one another by an immediately following Title line; in particular the
scenario block yields the single record with title "Attention Is All You
Need", year 2017 and the two authors. -/
theorem parser_round_trip (bs : List Block) (hwf : ∀ b ∈ bs, wfBlock b = true) :
    parseLines (renderSep bs) {} = bs.map blockRecord
    ∧ parseLines (renderNoSep bs) {} = bs.map blockRecord
    ∧ parseSuggestedPapers
        "Title: Attention Is All You Need\nYear: 2017\nAuthors: Ashish Vaswani, Noam Shazeer\n"
        = [{ title := "Attention Is All You Need", year := some 2017,
             authors := ["Ashish Vaswani", "Noam Shazeer"] }] := by
  refine ⟨?_, ?_, by decide⟩
  · rw [parse_sep bs hwf {}]
    rw [show ({} : CurPaper).flush = [] from rfl]
    simp
  · rw [parse_nosep bs hwf {}]
    rw [show ({} : CurPaper).flush = [] from rfl]
    simp

/-- C6 witness: the two-block instance, rendered both ways. -/
theorem parser_round_trip_witness :
    (∀ b ∈ [blockAttention, blockDeep], wfBlock b = true)
    ∧ parseLines (renderSep [blockAttention, blockDeep]) {}
        = [blockRecord blockAttention, blockRecord blockDeep]
    ∧ parseLines (renderNoSep [blockAttention, blockDeep]) {}
        = [blockRecord blockAttention, blockRecord blockDeep] :=
  ⟨by decide,
   (parser_round_trip [blockAttention, blockDeep] (by decide)).1,
   (parser_round_trip [blockAttention, blockDeep] (by decide)).2.1⟩

end CitationsTool
